import Mathlib

/-!
Verification of `src/utils/mermaid-init.ts`.

The module finds `pre code.language-mermaid` blocks, replaces each with a
`div.mermaid` container, remembers the original source in a module-level
`Map` (`mermaidCodeMap`), renders each container through the external
`mermaid` engine, and re-renders all containers whenever the `data-theme`
attribute on the document root mutates.

The embedding below is shallow: DOM elements are identified by natural
numbers, the `Map<Element, string>` becomes an association list keyed by
element identity, and the external `mermaid.render` call becomes an
explicit function argument returning `Except` (a thrown error is the
`.error` case, carrying the stringified error text).  The two passes
(`renderMermaidDiagrams`, `reRenderMermaidDiagrams`) are `async` in the
source; the plain recursive functions model an uninterrupted run, and a
separate coroutine presentation (`reRenderStart` / `reRenderResume`)
models the suspension points at each `await mermaid.render(...)` for the
concurrency claims.
-/

namespace MermaidInit

/-- The TypeScript union `'dark' | 'light'` returned by `getCurrentTheme`. -/
inductive Theme where
  | dark
  | light
deriving DecidableEq, Repr

/-- The options object passed to `mermaid.initialize({...})`. -/
structure MermaidConfig where
  startOnLoad : Bool
  theme : String
  fontFamily : String
  securityLevel : String
deriving DecidableEq, Repr

/-- One `pre code.language-mermaid` element as seen by the discovery pass:
its `parentElement` (the `pre` wrapper, `none` when null) and its
`textContent` (`none` when null). -/
structure CodeBlock where
  parent : Option Nat
  text : Option String
deriving DecidableEq, Repr

/-- One `div.mermaid` container created by the discovery pass: its element
identity, its `data-mermaid-index` attribute, and its current `innerHTML`. -/
structure Container where
  elemId : Nat
  dataIndex : Nat
  content : String
deriving DecidableEq, Repr

/-- The state touched by the module: the document (theme attribute, OS
preference, the `div.mermaid` containers in document order), the module
globals `mermaidCodeMap` and `renderCount`, mermaid's process-wide
configuration, and an allocator giving fresh identities to elements
created by `document.createElement`. -/
structure Sys where
  docTheme : Option String
  osPrefersDark : Bool
  codeMap : List (Nat × String)
  renderCount : Nat
  containers : List Container
  nextElem : Nat
  engineCfg : MermaidConfig
deriving DecidableEq, Repr

/-- The external `mermaid.render(id, code)` collaborator: given the render
identifier, the source text and mermaid's current global configuration it
either resolves with the svg markup or rejects with an error message. -/
abbrev Engine : Type := String → String → MermaidConfig → Except String String

/-- `getCurrentTheme`: return the `data-theme` attribute when it is
`'dark'` or `'light'`, otherwise fall back to the
`prefers-color-scheme: dark` media query. -/
def getCurrentTheme (s : Sys) : Theme :=
  if s.docTheme = some "dark" then Theme.dark
  else if s.docTheme = some "light" then Theme.light
  else if s.osPrefersDark then Theme.dark else Theme.light

/-- `initMermaidWithTheme`: the configuration passed to
`mermaid.initialize` (note `'light'` maps to the engine theme `'default'`). -/
def initMermaidWithTheme (theme : Theme) : MermaidConfig :=
  { startOnLoad := false
    theme := if theme = Theme.dark then "dark" else "default"
    fontFamily := "var(--serif)"
    securityLevel := "loose" }

/-- `Map.prototype.get` on the association-list model of `mermaidCodeMap`. -/
def lookupMap : List (Nat × String) → Nat → Option String
  | [], _ => none
  | (k, v) :: rest, key => if k = key then some v else lookupMap rest key

/-- `Map.prototype.set`: overwrite in place, or append a new entry. -/
def insertMap : List (Nat × String) → Nat → String → List (Nat × String)
  | [], key, v => [(key, v)]
  | (k, w) :: rest, key, v =>
    if k = key then (key, v) :: rest else (k, w) :: insertMap rest key v

/-- JavaScript falsiness of `mermaidCodeMap.get(diagram)` as tested by
`if (!code) continue;`: `undefined` and the empty string are falsy. -/
def isFalsy : Option String → Bool
  | none => true
  | some str => str = ""

/-- The template literal `` `mermaid-${renderCount}-${index}` `` building a
render identifier. -/
def mkId (renderCount index : Nat) : String :=
  "mermaid-" ++ Nat.repr renderCount ++ "-" ++ Nat.repr index

/-- The `catch` branch: `` `<pre>Mermaid Error: ${error}</pre>` ``. -/
def errorPlaceholder (e : String) : String :=
  "<pre>Mermaid Error: " ++ e ++ "</pre>"

/-- The `innerHTML` a container receives from one `try { ... } catch`
around `mermaid.render`: the svg on success, the placeholder on error. -/
def renderOutcome : Except String String → String
  | Except.ok svg => svg
  | Except.error e => errorPlaceholder e

/-- The `for (const codeBlock of codeBlocks)` loop of
`renderMermaidDiagrams`: skip blocks whose `parentElement` is null,
otherwise extract `textContent || ''`, create a fresh container carrying
`data-mermaid-index`, record the source in `mermaidCodeMap`, render with
identifier `mermaid-renderCount-index`, replace the `pre` with the
container, and increment `index`.  After the loop `renderCount++`. -/
def renderMermaidLoop (engine : Engine) : List CodeBlock → Sys → Nat → Sys
  | [], s, _ => { s with renderCount := s.renderCount + 1 }
  | b :: rest, s, index =>
    match b.parent with
    | none => renderMermaidLoop engine rest s index
    | some _ =>
      let code := b.text.getD ""
      let c := s.nextElem
      let content := renderOutcome (engine (mkId s.renderCount index) code s.engineCfg)
      renderMermaidLoop engine rest
        { s with
          nextElem := c + 1
          codeMap := insertMap s.codeMap c code
          containers := s.containers ++ [⟨c, index, content⟩] }
        (index + 1)

/-- `renderMermaidDiagrams` (discovery pass), run without interleaving:
resolve the theme, reconfigure the engine, then run the loop over the
`querySelectorAll('pre code.language-mermaid')` snapshot. -/
def renderMermaidDiagrams (engine : Engine) (blocks : List CodeBlock) (s : Sys) : Sys :=
  renderMermaidLoop engine blocks
    { s with engineCfg := initMermaidWithTheme (getCurrentTheme s) } 0

/-- The `for (const diagram of diagrams)` loop of
`reRenderMermaidDiagrams`: skip containers whose registered code is
falsy (`if (!code) continue;` — missing or empty), otherwise overwrite
`innerHTML` with the outcome of `mermaid.render` under identifier
`mermaid-renderCount-index` and increment `index`. -/
def reRenderLoop (engine : Engine) (cfg : MermaidConfig) (rc : Nat)
    (codeMap : List (Nat × String)) : List Container → Nat → List Container
  | [], _ => []
  | d :: rest, index =>
    let code? := lookupMap codeMap d.elemId
    if isFalsy code? then d :: reRenderLoop engine cfg rc codeMap rest index
    else
      let content := renderOutcome (engine (mkId rc index) (code?.getD "") cfg)
      { d with content := content } :: reRenderLoop engine cfg rc codeMap rest (index + 1)

/-- `reRenderMermaidDiagrams` (refresh pass), run without interleaving:
resolve the theme, reconfigure the engine, return early when
`querySelectorAll('.mermaid')` is empty (before any `renderCount`
change), otherwise run the loop and finish with `renderCount++`. -/
def reRenderMermaidDiagrams (engine : Engine) (s : Sys) : Sys :=
  if s.containers.isEmpty then
    { s with engineCfg := initMermaidWithTheme (getCurrentTheme s) }
  else
    { s with
      engineCfg := initMermaidWithTheme (getCurrentTheme s)
      containers := reRenderLoop engine (initMermaidWithTheme (getCurrentTheme s))
        s.renderCount s.codeMap s.containers 0
      renderCount := s.renderCount + 1 }

/-! ### Coroutine presentation of the refresh pass

`reRenderMermaidDiagrams` is `async` and suspends at every
`await mermaid.render(id, code)`.  Between two suspension points it runs
synchronously; at each suspension the loop has already computed the
identifier (from the current global `renderCount`) and started the render
(under mermaid's current global configuration), and on resumption it
writes the settled result into the container and advances to the next
diagram, reading the globals again.  `RefreshPhase` is the state of one
suspended pass. -/

/-- A refresh pass suspended at `await mermaid.render`: the container
whose `innerHTML` will be written on resumption, the identifier passed to
the engine, the settled result, the snapshot elements still to process,
and the current value of `index`. -/
structure RefreshPhase where
  target : Nat
  id : String
  content : String
  rest : List Nat
  index : Nat
deriving DecidableEq, Repr

/-- Advance the refresh loop synchronously over the remaining snapshot
until it issues the next `mermaid.render` call (returning the suspension
data) or falls off the end of the loop (returning `none`).  `cfg`, `rc`
and `codeMap` are the values of the globals at this moment. -/
def nextRender (engine : Engine) (cfg : MermaidConfig) (rc : Nat)
    (codeMap : List (Nat × String)) : List Nat → Nat → Option RefreshPhase
  | [], _ => none
  | c :: rest, index =>
    let code? := lookupMap codeMap c
    if isFalsy code? then nextRender engine cfg rc codeMap rest index
    else
      some { target := c
             id := mkId rc index
             content := renderOutcome (engine (mkId rc index) (code?.getD "") cfg)
             rest := rest
             index := index }

/-- `diagram.innerHTML = svg` on the container with identity `c`. -/
def setContent (cs : List Container) (c : Nat) (v : String) : List Container :=
  cs.map fun d => if d.elemId = c then { d with content := v } else d

/-- The synchronous prefix of a `reRenderMermaidDiagrams()` invocation:
resolve theme, reconfigure the engine, take the
`querySelectorAll('.mermaid')` snapshot, return early if it is empty;
otherwise run the loop up to its first suspension (or to completion,
with `renderCount++`, if no diagram has renderable code). -/
def reRenderStart (engine : Engine) (s : Sys) : Sys × Option RefreshPhase :=
  if s.containers.isEmpty then
    ({ s with engineCfg := initMermaidWithTheme (getCurrentTheme s) }, none)
  else
    match nextRender engine (initMermaidWithTheme (getCurrentTheme s))
        s.renderCount s.codeMap (s.containers.map Container.elemId) 0 with
    | none =>
      ({ s with engineCfg := initMermaidWithTheme (getCurrentTheme s)
                renderCount := s.renderCount + 1 }, none)
    | some k =>
      ({ s with engineCfg := initMermaidWithTheme (getCurrentTheme s) }, some k)

/-- Resumption of a suspended refresh pass: write the settled markup into
the target container, then continue the loop — reading the globals as
they are NOW, not as they were when the pass started — up to the next
suspension, or to the end of the loop and `renderCount++`. -/
def reRenderResume (engine : Engine) (s : Sys) (k : RefreshPhase) : Sys × Option RefreshPhase :=
  match nextRender engine s.engineCfg s.renderCount s.codeMap k.rest (k.index + 1) with
  | none =>
    ({ s with containers := setContent s.containers k.target k.content
              renderCount := s.renderCount + 1 }, none)
  | some k' =>
    ({ s with containers := setContent s.containers k.target k.content }, some k')

/-! ### The theme-change watcher -/

/-- One entry of the `MutationRecord[]` batch handed to the
`MutationObserver` callback: `mutation.type` and `mutation.attributeName`. -/
structure MutationRecord where
  mtype : String
  attributeName : Option String
deriving DecidableEq, Repr

/-- The observer callback of `observeThemeChange`: scan the batch, and on
the first record with `type === 'attributes'` and
`attributeName === 'data-theme'` call `reRenderMermaidDiagrams()` and
`break`.  The result counts how many refresh passes the callback
triggers for the batch. -/
def themeObserverCallback : List MutationRecord → Nat
  | [] => 0
  | m :: rest =>
    if m.mtype = "attributes" ∧ m.attributeName = some "data-theme" then 1
    else themeObserverCallback rest

/-- The options passed to `observer.observe(document.documentElement, ...)`:
only attribute mutations, filtered to `data-theme`, are delivered, so
every batch the callback sees concerns the document root. -/
structure ObserveOptions where
  watchAttributes : Bool
  attributeFilter : List String
deriving DecidableEq, Repr

/-- `{ attributes: true, attributeFilter: ['data-theme'] }`. -/
def observeThemeChangeOptions : ObserveOptions :=
  { watchAttributes := true, attributeFilter := ["data-theme"] }

/-! ### Sequences of non-overlapping passes -/

/-- One entry point of the pipeline: a discovery pass over a snapshot of
code blocks, or a refresh pass. -/
inductive Pass where
  | discovery (blocks : List CodeBlock)
  | refresh

/-- Run one pass to completion with no interleaving. -/
def applyPass (engine : Engine) : Pass → Sys → Sys
  | Pass.discovery blocks, s => renderMermaidDiagrams engine blocks s
  | Pass.refresh, s => reRenderMermaidDiagrams engine s

/-- The (renderCount, index) pairs from which the discovery loop builds
its render identifiers, in order of issue. -/
def renderLoopIds (rc : Nat) : List CodeBlock → Nat → List (Nat × Nat)
  | [], _ => []
  | b :: rest, index =>
    match b.parent with
    | none => renderLoopIds rc rest index
    | some _ => (rc, index) :: renderLoopIds rc rest (index + 1)

/-- The (renderCount, index) pairs from which the refresh loop builds its
render identifiers, in order of issue. -/
def reRenderLoopIds (rc : Nat) (codeMap : List (Nat × String)) :
    List Container → Nat → List (Nat × Nat)
  | [], _ => []
  | d :: rest, index =>
    if isFalsy (lookupMap codeMap d.elemId) then reRenderLoopIds rc codeMap rest index
    else (rc, index) :: reRenderLoopIds rc codeMap rest (index + 1)

/-- The identifier pairs issued by one pass started in state `s`. -/
def passIds : Pass → Sys → List (Nat × Nat)
  | Pass.discovery blocks, s => renderLoopIds s.renderCount blocks 0
  | Pass.refresh, s =>
    if s.containers.isEmpty then []
    else reRenderLoopIds s.renderCount s.codeMap s.containers 0

/-- Run a sequence of passes back to back, each completing before the
next starts. -/
def runPasses (engine : Engine) : List Pass → Sys → Sys
  | [], s => s
  | p :: ps, s => runPasses engine ps (applyPass engine p s)

/-- All identifier pairs issued across a sequence of non-overlapping
passes. -/
def runIds (engine : Engine) : List Pass → Sys → List (Nat × Nat)
  | [], _ => []
  | p :: ps, s => passIds p s ++ runIds engine ps (applyPass engine p s)

/-- The map entries the discovery loop adds for a run of blocks that all
have a valid wrapper, when containers are allocated from `e` upwards. -/
def discoveredEntries : List CodeBlock → Nat → List (Nat × String)
  | [], _ => []
  | b :: rest, e => (e, b.text.getD "") :: discoveredEntries rest (e + 1)

/-- How many elements of a snapshot of container identities the refresh
loop actually renders (those whose registered source is not falsy). -/
def countRendered (codeMap : List (Nat × String)) : List Nat → Nat
  | [] => 0
  | c :: rest =>
    (if isFalsy (lookupMap codeMap c) then 0 else 1) + countRendered codeMap rest

/-- The containers the discovery loop appends for a run of blocks that
all have a valid wrapper: identities from `e` upwards, `data-mermaid-index`
values from `index` upwards, each rendered from its own block's text
under its own identifier. -/
def discoveredContainers (engine : Engine) (cfg : MermaidConfig) (rc : Nat) :
    List CodeBlock → Nat → Nat → List Container
  | [], _, _ => []
  | b :: rest, e, index =>
    ⟨e, index, renderOutcome (engine (mkId rc index) (b.text.getD "") cfg)⟩ ::
      discoveredContainers engine cfg rc rest (e + 1) (index + 1)

/-! ## Basic lemmas -/

/-- The discovery loop always finishes with exactly one `renderCount++`. -/
lemma renderMermaidLoop_renderCount (engine : Engine) :
    ∀ (blocks : List CodeBlock) (s : Sys) (index : Nat),
      (renderMermaidLoop engine blocks s index).renderCount = s.renderCount + 1 := by
  intro blocks
  induction blocks with
  | nil => intro s index; rfl
  | cons b rest ih =>
    intro s index
    cases hb : b.parent with
    | none => simp [renderMermaidLoop, hb, ih]
    | some p => simp [renderMermaidLoop, hb, ih]

/-! ## Claim C5 -/

/-- Claim C5: `getCurrentTheme` always returns a value in dark/light;
when the `data-theme` attribute carries a recognized theme it is used,
in every other document state the OS-level dark-mode preference decides,
and the result depends on nothing but those two inputs. -/
theorem claim_C5 (s : Sys) :
    (getCurrentTheme s = Theme.dark ∨ getCurrentTheme s = Theme.light) ∧
    (s.docTheme = some "dark" → getCurrentTheme s = Theme.dark) ∧
    (s.docTheme = some "light" → getCurrentTheme s = Theme.light) ∧
    (s.docTheme ≠ some "dark" → s.docTheme ≠ some "light" →
      getCurrentTheme s = (if s.osPrefersDark then Theme.dark else Theme.light)) ∧
    (∀ s' : Sys, s'.docTheme = s.docTheme → s'.osPrefersDark = s.osPrefersDark →
      getCurrentTheme s' = getCurrentTheme s) := by
  unfold getCurrentTheme
  refine ⟨?_, ?_, ?_, ?_, ?_⟩
  · by_cases h1 : s.docTheme = some "dark" <;>
      by_cases h2 : s.docTheme = some "light" <;>
      by_cases h3 : s.osPrefersDark <;> simp [h1, h2, h3]
  · intro h; simp [h]
  · intro h; simp [h]
  · intro h1 h2; simp [h1, h2]
  · intro s' h1 h2; simp [h1, h2]

/-- Concrete instantiation of claim C5: with the attribute set to dark
the resolved theme is dark. -/
theorem claim_C5_witness :
    getCurrentTheme
      { docTheme := some "dark", osPrefersDark := false, codeMap := [],
        renderCount := 0, containers := [], nextElem := 0,
        engineCfg := initMermaidWithTheme Theme.light } = Theme.dark :=
  (claim_C5 _).2.1 rfl

/-! ## Claim C9 -/

/-- Claim C9: the theme-change watcher's callback triggers a refresh pass
exactly when the delivered batch contains an attribute mutation of
`data-theme`, triggers at most one refresh per batch, and triggers
nothing for a batch of unrelated mutations. -/
theorem claim_C9 (muts : List MutationRecord) :
    (themeObserverCallback muts = 1 ↔
      ∃ m ∈ muts, m.mtype = "attributes" ∧ m.attributeName = some "data-theme") ∧
    themeObserverCallback muts ≤ 1 ∧
    ((∀ m ∈ muts, ¬(m.mtype = "attributes" ∧ m.attributeName = some "data-theme")) →
      themeObserverCallback muts = 0) := by
  induction muts with
  | nil => simp [themeObserverCallback]
  | cons m rest ih =>
    by_cases h : m.mtype = "attributes" ∧ m.attributeName = some "data-theme"
    · refine ⟨?_, ?_, ?_⟩
      · simp [themeObserverCallback, h]
      · simp [themeObserverCallback, h]
      · intro hall
        exact absurd h (hall m (List.mem_cons_self m rest))
    · refine ⟨?_, ?_, ?_⟩
      · rw [show themeObserverCallback (m :: rest) = themeObserverCallback rest by
            simp [themeObserverCallback, h]]
        rw [ih.1]
        constructor
        · rintro ⟨x, hx, hrel⟩; exact ⟨x, List.mem_cons_of_mem m hx, hrel⟩
        · rintro ⟨x, hx, hrel⟩
          rcases List.mem_cons.1 hx with rfl | hx'
          · exact absurd hrel h
          · exact ⟨x, hx', hrel⟩
      · rw [show themeObserverCallback (m :: rest) = themeObserverCallback rest by
            simp [themeObserverCallback, h]]
        exact ih.2.1
      · intro hall
        rw [show themeObserverCallback (m :: rest) = themeObserverCallback rest by
            simp [themeObserverCallback, h]]
        exact ih.2.2 fun x hx => hall x (List.mem_cons_of_mem m hx)

/-- Concrete instantiation of claim C9: a batch with one unrelated
attribute mutation and one `data-theme` mutation triggers exactly one
refresh. -/
theorem claim_C9_witness :
    themeObserverCallback
      [{ mtype := "attributes", attributeName := some "class" },
       { mtype := "attributes", attributeName := some "data-theme" }] = 1 :=
  (claim_C9 _).1.mpr
    ⟨{ mtype := "attributes", attributeName := some "data-theme" },
      by simp, by simp⟩

/-! ## Claim C10 -/

/-- Claim C10: the end-of-pass epoch increment is skipped exactly when a
refresh pass finds zero `.mermaid` containers (it returns early leaving
`renderCount` unchanged); a refresh pass that finds any container, and a
discovery pass even over zero code blocks, increment it exactly once. -/
theorem claim_C10 (engine : Engine) (s : Sys) :
    (s.containers = [] →
      (reRenderMermaidDiagrams engine s).renderCount = s.renderCount) ∧
    (s.containers ≠ [] →
      (reRenderMermaidDiagrams engine s).renderCount = s.renderCount + 1) ∧
    (∀ blocks : List CodeBlock,
      (renderMermaidDiagrams engine blocks s).renderCount = s.renderCount + 1) := by
  refine ⟨?_, ?_, ?_⟩
  · intro h
    simp [reRenderMermaidDiagrams, h]
  · intro h
    simp [reRenderMermaidDiagrams, List.isEmpty_iff, h]
  · intro blocks
    unfold renderMermaidDiagrams
    rw [renderMermaidLoop_renderCount]

/-- Concrete instantiation of claim C10: on a state with no containers a
refresh pass leaves the epoch at 7, while a discovery pass over an empty
snapshot bumps it to 8. -/
theorem claim_C10_witness :
    (reRenderMermaidDiagrams (fun _ _ _ => Except.ok "svg")
      { docTheme := none, osPrefersDark := false, codeMap := [],
        renderCount := 7, containers := [], nextElem := 0,
        engineCfg := initMermaidWithTheme Theme.light }).renderCount = 7 ∧
    (renderMermaidDiagrams (fun _ _ _ => Except.ok "svg") []
      { docTheme := none, osPrefersDark := false, codeMap := [],
        renderCount := 7, containers := [], nextElem := 0,
        engineCfg := initMermaidWithTheme Theme.light }).renderCount = 8 :=
  ⟨(claim_C10 _ _).1 rfl, (claim_C10 _ _).2.2 []⟩

/-! ## Discovery-pass characterization -/

/-- `Map.prototype.set` with a key absent from the map appends. -/
lemma insertMap_fresh (v : String) :
    ∀ (m : List (Nat × String)) (key : Nat), (∀ kv ∈ m, kv.1 ≠ key) →
      insertMap m key v = m ++ [(key, v)] := by
  intro m
  induction m with
  | nil => intro key _; rfl
  | cons kv0 rest ih =>
    intro key h
    obtain ⟨k, w⟩ := kv0
    have hk : k ≠ key := h (k, w) (List.mem_cons_self (k, w) rest)
    simp only [insertMap, if_neg hk, List.cons_append]
    rw [ih key fun x hx => h x (List.mem_cons_of_mem (k, w) hx)]

lemma discoveredEntries_length :
    ∀ (blocks : List CodeBlock) (e : Nat), (discoveredEntries blocks e).length = blocks.length := by
  intro blocks
  induction blocks with
  | nil => intro e; rfl
  | cons b rest ih => intro e; simp [discoveredEntries, ih]

lemma discoveredContainers_length (engine : Engine) (cfg : MermaidConfig) (rc : Nat) :
    ∀ (blocks : List CodeBlock) (e index : Nat),
      (discoveredContainers engine cfg rc blocks e index).length = blocks.length := by
  intro blocks
  induction blocks with
  | nil => intro e index; rfl
  | cons b rest ih => intro e index; simp [discoveredContainers, ih]

/-- The containers produced by the discovery loop, when every block has a
valid wrapper. -/
lemma renderMermaidLoop_containers (engine : Engine) :
    ∀ (blocks : List CodeBlock) (s : Sys) (index : Nat),
      (∀ b ∈ blocks, b.parent.isSome) →
      (renderMermaidLoop engine blocks s index).containers =
        s.containers ++
          discoveredContainers engine s.engineCfg s.renderCount blocks s.nextElem index := by
  intro blocks
  induction blocks with
  | nil => intro s index _; simp [renderMermaidLoop, discoveredContainers]
  | cons b rest ih =>
    intro s index hv
    obtain ⟨p, hp⟩ := Option.isSome_iff_exists.1 (hv b (List.mem_cons_self b rest))
    simp only [renderMermaidLoop, hp]
    rw [ih _ _ fun x hx => hv x (List.mem_cons_of_mem b hx)]
    simp [discoveredContainers, List.append_assoc]

/-- The map entries produced by the discovery loop, when every block has
a valid wrapper and every existing key is below the allocator. -/
lemma renderMermaidLoop_codeMap (engine : Engine) :
    ∀ (blocks : List CodeBlock) (s : Sys) (index : Nat),
      (∀ b ∈ blocks, b.parent.isSome) →
      (∀ kv ∈ s.codeMap, kv.1 < s.nextElem) →
      (renderMermaidLoop engine blocks s index).codeMap =
        s.codeMap ++ discoveredEntries blocks s.nextElem := by
  intro blocks
  induction blocks with
  | nil => intro s index _ _; simp [renderMermaidLoop, discoveredEntries]
  | cons b rest ih =>
    intro s index hv hfresh
    obtain ⟨p, hp⟩ := Option.isSome_iff_exists.1 (hv b (List.mem_cons_self b rest))
    have hins : insertMap s.codeMap s.nextElem (b.text.getD "") =
        s.codeMap ++ [(s.nextElem, b.text.getD "")] :=
      insertMap_fresh _ _ _ fun kv hkv => Nat.ne_of_lt (hfresh kv hkv)
    have hfresh' : ∀ kv ∈ s.codeMap ++ [(s.nextElem, b.text.getD "")],
        kv.1 < s.nextElem + 1 := by
      intro kv hkv
      rcases List.mem_append.1 hkv with hold | hnew
      · exact Nat.lt_succ_of_lt (hfresh kv hold)
      · simp only [List.mem_singleton] at hnew
        subst hnew
        exact Nat.lt_succ_self _
    simp only [renderMermaidLoop, hp]
    rw [ih _ _ (fun x hx => hv x (List.mem_cons_of_mem b hx)) (by simpa [hins] using hfresh')]
    simp [hins, discoveredEntries, List.append_assoc]

/-- Looking up the `i`-th discovered key recovers the `i`-th block's text. -/
lemma lookupMap_discoveredEntries :
    ∀ (blocks : List CodeBlock) (e i : Nat) (hi : i < blocks.length),
      lookupMap (discoveredEntries blocks e) (e + i) =
        some ((blocks.get ⟨i, hi⟩).text.getD "") := by
  intro blocks
  induction blocks with
  | nil => intro e i hi; exact absurd hi (Nat.not_lt_zero i)
  | cons b rest ih =>
    intro e i hi
    cases i with
    | zero => simp [discoveredEntries, lookupMap]
    | succ i =>
      have hne : e ≠ e + (i + 1) := by omega
      simp only [discoveredEntries, lookupMap, if_neg hne]
      have h2 : e + (i + 1) = (e + 1) + i := by omega
      rw [h2]
      exact ih (e + 1) i (Nat.lt_of_succ_lt_succ hi)

/-- Zipping discovered containers with their source blocks: under a map
in which key `e + i` holds the `i`-th block's text, every pair resolves
to its own block's text. -/
lemma zip_discovered_lookup (engine : Engine) (cfg : MermaidConfig) (rc : Nat) :
    ∀ (blocks : List CodeBlock) (cm : List (Nat × String)) (e index : Nat),
      (∀ i (hi : i < blocks.length),
        lookupMap cm (e + i) = some ((blocks.get ⟨i, hi⟩).text.getD "")) →
      ∀ p ∈ (discoveredContainers engine cfg rc blocks e index).zip blocks,
        lookupMap cm p.1.elemId = some (p.2.text.getD "") := by
  intro blocks
  induction blocks with
  | nil => intro cm e index _ p hp; simp [discoveredContainers] at hp
  | cons b rest ih =>
    intro cm e index hcm p hp
    simp only [discoveredContainers, List.zip_cons_cons, List.mem_cons] at hp
    rcases hp with rfl | hp
    · simpa using hcm 0 (Nat.succ_pos _)
    · refine ih cm (e + 1) (index + 1) ?_ p hp
      intro i hi
      have : e + 1 + i = e + (i + 1) := by omega
      rw [this]
      exact hcm (i + 1) (Nat.succ_lt_succ hi)

/-! ## Claim C1 -/

/-- Claim C1: starting from the pristine module state (empty registry, no
containers yet), a discovery pass over `N` code blocks that all have a
valid `pre` wrapper leaves exactly `N` registry entries and creates `N`
containers, and looking up each created container in the registry yields
exactly the text extracted from its own code block. -/
theorem claim_C1 (engine : Engine) (blocks : List CodeBlock) (s : Sys)
    (h1 : s.codeMap = []) (h2 : s.containers = [])
    (h3 : ∀ b ∈ blocks, b.parent.isSome) :
    (renderMermaidDiagrams engine blocks s).codeMap.length = blocks.length ∧
    (renderMermaidDiagrams engine blocks s).containers.length = blocks.length ∧
    ∀ p ∈ (renderMermaidDiagrams engine blocks s).containers.zip blocks,
      lookupMap (renderMermaidDiagrams engine blocks s).codeMap p.1.elemId =
        some (p.2.text.getD "") := by
  unfold renderMermaidDiagrams
  rw [renderMermaidLoop_codeMap engine blocks _ 0 h3 (by simp [h1]),
      renderMermaidLoop_containers engine blocks _ 0 h3]
  simp only [h1, h2, List.nil_append]
  refine ⟨discoveredEntries_length blocks _, discoveredContainers_length _ _ _ blocks _ _, ?_⟩
  exact zip_discovered_lookup _ _ _ blocks _ _ _ (lookupMap_discoveredEntries blocks _)

/-- Concrete instantiation of claim C1: one block holding
`graph TD; A-->B;` yields a one-entry registry resolving the created
container to exactly that source text. -/
theorem claim_C1_witness :
    (renderMermaidDiagrams (fun _ _ _ => Except.ok "<svg/>")
        [{ parent := some 3, text := some "graph TD; A-->B;" }]
        { docTheme := none, osPrefersDark := false, codeMap := [],
          renderCount := 0, containers := [], nextElem := 0,
          engineCfg := initMermaidWithTheme Theme.light }).codeMap.length = 1 ∧
    lookupMap (renderMermaidDiagrams (fun _ _ _ => Except.ok "<svg/>")
        [{ parent := some 3, text := some "graph TD; A-->B;" }]
        { docTheme := none, osPrefersDark := false, codeMap := [],
          renderCount := 0, containers := [], nextElem := 0,
          engineCfg := initMermaidWithTheme Theme.light }).codeMap 0 =
      some "graph TD; A-->B;" := by
  have h := claim_C1 (fun _ _ _ => Except.ok "<svg/>")
    [{ parent := some 3, text := some "graph TD; A-->B;" }]
    { docTheme := none, osPrefersDark := false, codeMap := [],
      renderCount := 0, containers := [], nextElem := 0,
      engineCfg := initMermaidWithTheme Theme.light }
    rfl rfl (by intro b hb; rw [List.mem_singleton.1 hb]; rfl)
  refine ⟨h.1, ?_⟩
  have hp := h.2.2 (⟨0, 0, "<svg/>"⟩, { parent := some 3, text := some "graph TD; A-->B;" })
    (List.mem_singleton.2 rfl)
  exact hp

/-! ## Claim C7 -/

/-- Counterexample to claim C7 as stated: a code block whose text content
is the empty string is registered with empty source text, so not every
registry entry has non-empty source. -/
theorem claim_C7_counterexample :
    (renderMermaidDiagrams (fun _ _ _ => Except.ok "<svg/>")
        [{ parent := some 1, text := some "" }]
        { docTheme := none, osPrefersDark := false, codeMap := [],
          renderCount := 0, containers := [], nextElem := 0,
          engineCfg := initMermaidWithTheme Theme.light }).codeMap = [(0, "")] ∧
    ¬ (∀ kv ∈ (renderMermaidDiagrams (fun _ _ _ => Except.ok "<svg/>")
        [{ parent := some 1, text := some "" }]
        { docTheme := none, osPrefersDark := false, codeMap := [],
          renderCount := 0, containers := [], nextElem := 0,
          engineCfg := initMermaidWithTheme Theme.light }).codeMap, kv.2 ≠ "") := by
  refine ⟨rfl, fun h => ?_⟩
  exact h (0, "") (List.mem_singleton.2 rfl) rfl

/-- Membership after `Map.prototype.set`: either an old entry or the new
one. -/
lemma mem_insertMap :
    ∀ (m : List (Nat × String)) (key : Nat) (v : String) (kv : Nat × String),
      kv ∈ insertMap m key v → kv ∈ m ∨ kv = (key, v) := by
  intro m
  induction m with
  | nil => intro key v kv hkv; simp [insertMap] at hkv; exact Or.inr hkv
  | cons kw rest ih =>
    intro key v kv hkv
    by_cases hk : kw.1 = key
    · rw [show insertMap (kw :: rest) key v = (key, v) :: rest by
          simp [insertMap, hk]] at hkv
      rcases List.mem_cons.1 hkv with rfl | h
      · exact Or.inr rfl
      · exact Or.inl (List.mem_cons_of_mem kw h)
    · rw [show insertMap (kw :: rest) key v = kw :: insertMap rest key v by
          simp [insertMap, hk]] at hkv
      rcases List.mem_cons.1 hkv with heq | h
      · exact Or.inl (by rw [heq]; exact List.mem_cons_self kw rest)
      · rcases ih key v kv h with hold | hnew
        · exact Or.inl (List.mem_cons_of_mem kw hold)
        · exact Or.inr hnew

/-- Every entry in the map after the discovery loop is an old entry or
the extracted text of a block with a valid wrapper. -/
lemma renderMermaidLoop_codeMap_mem (engine : Engine) :
    ∀ (blocks : List CodeBlock) (s : Sys) (index : Nat),
      ∀ kv ∈ (renderMermaidLoop engine blocks s index).codeMap,
        kv ∈ s.codeMap ∨ ∃ b ∈ blocks, b.parent.isSome ∧ kv.2 = b.text.getD "" := by
  intro blocks
  induction blocks with
  | nil => intro s index kv hkv; exact Or.inl hkv
  | cons b rest ih =>
    intro s index kv hkv
    cases hb : b.parent with
    | none =>
      rw [show renderMermaidLoop engine (b :: rest) s index =
          renderMermaidLoop engine rest s index by simp [renderMermaidLoop, hb]] at hkv
      rcases ih s index kv hkv with hin | ⟨x, hx, hpx⟩
      · exact Or.inl hin
      · exact Or.inr ⟨x, List.mem_cons_of_mem b hx, hpx⟩
    | some p =>
      simp only [renderMermaidLoop, hb] at hkv
      rcases ih _ _ kv hkv with hin | ⟨x, hx, hpx⟩
      · rcases mem_insertMap _ _ _ _ hin with hold | rfl
        · exact Or.inl hold
        · exact Or.inr ⟨b, List.mem_cons_self b rest, by simp [hb]⟩
      · exact Or.inr ⟨x, List.mem_cons_of_mem b hx, hpx⟩

/-- Claim C7 amended: every entry the discovery pass adds to the registry
carries exactly the text extracted from some block with a valid wrapper
(`textContent` with null coerced to the empty string) — which may be
empty; non-emptiness is not guaranteed. -/
theorem claim_C7_amended (engine : Engine) (blocks : List CodeBlock) (s : Sys) :
    ∀ kv ∈ (renderMermaidDiagrams engine blocks s).codeMap,
      kv ∈ s.codeMap ∨ ∃ b ∈ blocks, b.parent.isSome ∧ kv.2 = b.text.getD "" := by
  intro kv hkv
  exact renderMermaidLoop_codeMap_mem engine blocks
    { s with engineCfg := initMermaidWithTheme (getCurrentTheme s) } 0 kv hkv

/-- Concrete instantiation of claim C7 (amended): the single entry
registered for an empty block is traced back to that block's (empty)
text. -/
theorem claim_C7_witness :
    (0, "") ∈ ([] : List (Nat × String)) ∨
    ∃ b ∈ [({ parent := some 1, text := some "" } : CodeBlock)],
      b.parent.isSome ∧ (0, "").2 = b.text.getD "" := by
  have h := claim_C7_amended (fun _ _ _ => Except.ok "<svg/>")
    [{ parent := some 1, text := some "" }]
    { docTheme := none, osPrefersDark := false, codeMap := [],
      renderCount := 0, containers := [], nextElem := 0,
      engineCfg := initMermaidWithTheme Theme.light }
    (0, "") (List.mem_singleton.2 rfl)
  exact h

/-! ## Refresh-pass characterization -/

lemma isEmpty_false_of_length_pos {α : Type} {l : List α} (h : 0 < l.length) :
    l.isEmpty = false := by
  cases l with
  | nil => simp at h
  | cons a t => rfl

lemma reRenderLoop_length (engine : Engine) (cfg : MermaidConfig) (rc : Nat)
    (cm : List (Nat × String)) :
    ∀ (cs : List Container) (index : Nat),
      (reRenderLoop engine cfg rc cm cs index).length = cs.length := by
  intro cs
  induction cs with
  | nil => intro index; rfl
  | cons d rest ih =>
    intro index
    cases h : isFalsy (lookupMap cm d.elemId) with
    | false => simp [reRenderLoop, h, ih]
    | true => simp [reRenderLoop, h, ih]

/-- The refresh loop only rewrites `innerHTML`: identity and the
`data-mermaid-index` attribute of every container are untouched. -/
lemma reRenderLoop_pairs (engine : Engine) (cfg : MermaidConfig) (rc : Nat)
    (cm : List (Nat × String)) :
    ∀ (cs : List Container) (index : Nat),
      (reRenderLoop engine cfg rc cm cs index).map (fun d => (d.elemId, d.dataIndex)) =
        cs.map (fun d => (d.elemId, d.dataIndex)) := by
  intro cs
  induction cs with
  | nil => intro index; rfl
  | cons d rest ih =>
    intro index
    cases h : isFalsy (lookupMap cm d.elemId) with
    | false => simp [reRenderLoop, h, ih]
    | true => simp [reRenderLoop, h, ih]

lemma reRenderLoop_map_elemId (engine : Engine) (cfg : MermaidConfig) (rc : Nat)
    (cm : List (Nat × String)) :
    ∀ (cs : List Container) (index : Nat),
      (reRenderLoop engine cfg rc cm cs index).map Container.elemId =
        cs.map Container.elemId := by
  intro cs
  induction cs with
  | nil => intro index; rfl
  | cons d rest ih =>
    intro index
    cases h : isFalsy (lookupMap cm d.elemId) with
    | false => simp [reRenderLoop, h, ih]
    | true => simp [reRenderLoop, h, ih]

/-- Pointwise description of the refresh loop: the `j`-th container is
untouched when its registered source is falsy, and otherwise receives the
outcome of its own render call, whose per-item sequence number counts the
renderable containers before it. -/
lemma reRenderLoop_getElem (engine : Engine) (cfg : MermaidConfig) (rc : Nat)
    (cm : List (Nat × String)) :
    ∀ (cs : List Container) (index j : Nat) (hj : j < cs.length),
      (reRenderLoop engine cfg rc cm cs index)[j]? =
        some (
          if isFalsy (lookupMap cm (cs.get ⟨j, hj⟩).elemId) then cs.get ⟨j, hj⟩
          else { cs.get ⟨j, hj⟩ with content := (renderOutcome (engine
              (mkId rc (index + countRendered cm ((cs.take j).map Container.elemId)))
              ((lookupMap cm (cs.get ⟨j, hj⟩).elemId).getD "") cfg)) }) := by
  intro cs
  induction cs with
  | nil => intro index j hj; exact absurd hj (Nat.not_lt_zero j)
  | cons d rest ih =>
    intro index j hj
    cases j with
    | zero =>
      cases h : isFalsy (lookupMap cm d.elemId) with
      | false => simp [reRenderLoop, h, countRendered]
      | true => simp [reRenderLoop, h]
    | succ j =>
      have hj' : j < rest.length := Nat.lt_of_succ_lt_succ hj
      cases h : isFalsy (lookupMap cm d.elemId) with
      | false =>
        have harith : index + 1 + countRendered cm ((rest.take j).map Container.elemId) =
            index + (1 + countRendered cm ((rest.take j).map Container.elemId)) :=
          Nat.add_assoc index 1 _
        simp only [reRenderLoop, h, Bool.false_eq_true, if_false, List.getElem?_cons_succ,
          List.get_cons_succ, List.take_succ_cons, List.map_cons, countRendered, if_neg,
          ih (index + 1) j hj', harith]
      | true =>
        simp only [reRenderLoop, h, if_true, List.getElem?_cons_succ, List.get_cons_succ,
          List.take_succ_cons, List.map_cons, countRendered, if_pos, Nat.zero_add,
          ih index j hj']

lemma getCurrentTheme_congr (s s' : Sys) (h1 : s'.docTheme = s.docTheme)
    (h2 : s'.osPrefersDark = s.osPrefersDark) : getCurrentTheme s' = getCurrentTheme s := by
  unfold getCurrentTheme
  rw [h1, h2]

/-- Everything a refresh pass leaves unchanged: the document's theme
inputs, the registry, the element allocator, and the identity and
attribute of every container. -/
lemma reRender_preserves (engine : Engine) (s : Sys) :
    (reRenderMermaidDiagrams engine s).docTheme = s.docTheme ∧
    (reRenderMermaidDiagrams engine s).osPrefersDark = s.osPrefersDark ∧
    (reRenderMermaidDiagrams engine s).codeMap = s.codeMap ∧
    (reRenderMermaidDiagrams engine s).nextElem = s.nextElem ∧
    (reRenderMermaidDiagrams engine s).containers.map (fun d => (d.elemId, d.dataIndex)) =
      s.containers.map (fun d => (d.elemId, d.dataIndex)) ∧
    (reRenderMermaidDiagrams engine s).containers.length = s.containers.length := by
  cases hE : s.containers.isEmpty with
  | false =>
    refine ⟨?_, ?_, ?_, ?_, ?_, ?_⟩ <;>
      simp [reRenderMermaidDiagrams, hE, reRenderLoop_pairs, reRenderLoop_length]
  | true =>
    refine ⟨?_, ?_, ?_, ?_, ?_, ?_⟩ <;> simp [reRenderMermaidDiagrams, hE]

/-! ## Claim C6 -/

/-- Claim C6: a refresh pass performs no discovery: the registry is
untouched (no entry added, removed or rewritten), no new element is
allocated, and the containers keep their identities, order and
`data-mermaid-index` attributes — the pass only overwrites their
displayed markup. -/
theorem claim_C6 (engine : Engine) (s : Sys) :
    (reRenderMermaidDiagrams engine s).codeMap = s.codeMap ∧
    (reRenderMermaidDiagrams engine s).nextElem = s.nextElem ∧
    (reRenderMermaidDiagrams engine s).containers.map (fun d => (d.elemId, d.dataIndex)) =
      s.containers.map (fun d => (d.elemId, d.dataIndex)) ∧
    (reRenderMermaidDiagrams engine s).containers.length = s.containers.length ∧
    (reRenderMermaidDiagrams engine s).docTheme = s.docTheme ∧
    (reRenderMermaidDiagrams engine s).osPrefersDark = s.osPrefersDark := by
  obtain ⟨h1, h2, h3, h4, h5, h6⟩ := reRender_preserves engine s
  exact ⟨h3, h4, h5, h6, h1, h2⟩

/-- Concrete instantiation of claim C6: a refresh pass over one
registered container leaves the registry exactly as it was. -/
theorem claim_C6_witness :
    (reRenderMermaidDiagrams (fun _ _ _ => Except.ok "<svg2/>")
      { docTheme := some "dark", osPrefersDark := false, codeMap := [(0, "graph TD;")],
        renderCount := 1, containers := [⟨0, 0, "<svg1/>"⟩], nextElem := 1,
        engineCfg := initMermaidWithTheme Theme.light }).codeMap = [(0, "graph TD;")] :=
  (claim_C6 (fun _ _ _ => Except.ok "<svg2/>")
    { docTheme := some "dark", osPrefersDark := false, codeMap := [(0, "graph TD;")],
      renderCount := 1, containers := [⟨0, 0, "<svg1/>"⟩], nextElem := 1,
      engineCfg := initMermaidWithTheme Theme.light }).1

/-! ## Claim C2 -/

/-- Claim C2: failures are contained per diagram.  In a refresh pass, the
`j`-th container's final markup is decided solely by the engine's answer
to that container's own render call — the svg on success, an error
placeholder embedding the engine's error text on failure — regardless of
what the engine does on any other diagram; in a discovery pass the
containers created are likewise each rendered from their own block alone.
No per-item failure aborts the pass. -/
theorem claim_C2 (engine : Engine) (s : Sys) :
    (∀ (j : Nat) (hj : j < s.containers.length) (code : String),
      lookupMap s.codeMap ((s.containers.get ⟨j, hj⟩).elemId) = some code → code ≠ "" →
      ((∀ svg,
          engine (mkId s.renderCount
              (countRendered s.codeMap ((s.containers.take j).map Container.elemId)))
            code (initMermaidWithTheme (getCurrentTheme s)) = Except.ok svg →
          ((reRenderMermaidDiagrams engine s).containers.map Container.content)[j]? =
            some svg) ∧
       (∀ e,
          engine (mkId s.renderCount
              (countRendered s.codeMap ((s.containers.take j).map Container.elemId)))
            code (initMermaidWithTheme (getCurrentTheme s)) = Except.error e →
          ((reRenderMermaidDiagrams engine s).containers.map Container.content)[j]? =
            some (errorPlaceholder e) ∧
          ∃ pre suf, errorPlaceholder e = pre ++ e ++ suf))) ∧
    (∀ blocks : List CodeBlock, s.containers = [] → (∀ b ∈ blocks, b.parent.isSome) →
      (renderMermaidDiagrams engine blocks s).containers =
        discoveredContainers engine (initMermaidWithTheme (getCurrentTheme s))
          s.renderCount blocks s.nextElem 0) := by
  constructor
  · intro j hj code hcode hne
    have hfal : isFalsy (lookupMap s.codeMap ((s.containers.get ⟨j, hj⟩).elemId)) = false := by
      rw [hcode]
      simp [isFalsy, hne]
    have hE : s.containers.isEmpty = false :=
      isEmpty_false_of_length_pos (Nat.lt_of_le_of_lt (Nat.zero_le j) hj)
    have hcs : (reRenderMermaidDiagrams engine s).containers =
        reRenderLoop engine (initMermaidWithTheme (getCurrentTheme s))
          s.renderCount s.codeMap s.containers 0 := by
      simp [reRenderMermaidDiagrams, hE]
    have hloop := reRenderLoop_getElem engine (initMermaidWithTheme (getCurrentTheme s))
      s.renderCount s.codeMap s.containers 0 j hj
    rw [hfal] at hloop
    simp only [Bool.false_eq_true, if_false, hcode, Option.getD_some, Nat.zero_add] at hloop
    constructor
    · intro svg hok
      rw [hcs, List.getElem?_map, hloop, hok]
      simp [renderOutcome]
    · intro e herr
      rw [hcs, List.getElem?_map, hloop, herr]
      refine ⟨by simp [renderOutcome], "<pre>Mermaid Error: ", "</pre>", rfl⟩
  · intro blocks hempty hvalid
    unfold renderMermaidDiagrams
    rw [renderMermaidLoop_containers engine blocks _ 0 hvalid]
    simp [hempty]

/-- Concrete instantiation of claim C2: three registered diagrams, the
engine failing exactly on the second — the first and third containers
show their svg, the second shows the error placeholder embedding the
engine's message. -/
theorem claim_C2_witness :
    (((reRenderMermaidDiagrams
        (fun _ code _ => if code = "g1" then Except.error "boom" else Except.ok ("svg:" ++ code))
        { docTheme := none, osPrefersDark := false,
          codeMap := [(0, "g0"), (1, "g1"), (2, "g2")], renderCount := 1,
          containers := [⟨0, 0, "a"⟩, ⟨1, 1, "b"⟩, ⟨2, 2, "c"⟩], nextElem := 3,
          engineCfg := initMermaidWithTheme Theme.light }).containers.map
        Container.content)[0]? = some "svg:g0") ∧
    (((reRenderMermaidDiagrams
        (fun _ code _ => if code = "g1" then Except.error "boom" else Except.ok ("svg:" ++ code))
        { docTheme := none, osPrefersDark := false,
          codeMap := [(0, "g0"), (1, "g1"), (2, "g2")], renderCount := 1,
          containers := [⟨0, 0, "a"⟩, ⟨1, 1, "b"⟩, ⟨2, 2, "c"⟩], nextElem := 3,
          engineCfg := initMermaidWithTheme Theme.light }).containers.map
        Container.content)[1]? = some (errorPlaceholder "boom")) ∧
    (((reRenderMermaidDiagrams
        (fun _ code _ => if code = "g1" then Except.error "boom" else Except.ok ("svg:" ++ code))
        { docTheme := none, osPrefersDark := false,
          codeMap := [(0, "g0"), (1, "g1"), (2, "g2")], renderCount := 1,
          containers := [⟨0, 0, "a"⟩, ⟨1, 1, "b"⟩, ⟨2, 2, "c"⟩], nextElem := 3,
          engineCfg := initMermaidWithTheme Theme.light }).containers.map
        Container.content)[2]? = some "svg:g2") := by
  have h := claim_C2
    (fun _ code _ => if code = "g1" then Except.error "boom" else Except.ok ("svg:" ++ code))
    { docTheme := none, osPrefersDark := false,
      codeMap := [(0, "g0"), (1, "g1"), (2, "g2")], renderCount := 1,
      containers := [⟨0, 0, "a"⟩, ⟨1, 1, "b"⟩, ⟨2, 2, "c"⟩], nextElem := 3,
      engineCfg := initMermaidWithTheme Theme.light }
  refine ⟨?_, ?_, ?_⟩
  · exact (h.1 0 (by decide) "g0" rfl (by decide)).1 "svg:g0" rfl
  · exact ((h.1 1 (by decide) "g1" rfl (by decide)).2 "boom" rfl).1
  · exact (h.1 2 (by decide) "g2" rfl (by decide)).1 "svg:g2" rfl

/-! ## Claim C8 -/

lemma reRender_containers_of_empty (engine : Engine) (t : Sys) (h : t.containers = []) :
    (reRenderMermaidDiagrams engine t).containers = [] := by
  simp [reRenderMermaidDiagrams, h]

/-- Claim C8: refresh is idempotent modulo identifiers.  With an engine
whose output does not depend on the render identifier (the claim's
"equivalent modulo embedded per-render identifiers", for a deterministic
engine) and no intervening theme change, a second refresh pass reproduces
exactly the markup of the first in every container. -/
theorem claim_C8 (engine : Engine)
    (hengine : ∀ id1 id2 code cfg, engine id1 code cfg = engine id2 code cfg) (s : Sys) :
    ((reRenderMermaidDiagrams engine (reRenderMermaidDiagrams engine s)).containers.map
        Container.content) =
      ((reRenderMermaidDiagrams engine s).containers.map Container.content) := by
  obtain ⟨hdoc, hos, hcm, _, _, hlen⟩ := reRender_preserves engine s
  have hthe : getCurrentTheme (reRenderMermaidDiagrams engine s) = getCurrentTheme s :=
    getCurrentTheme_congr s _ hdoc hos
  cases hE : s.containers.isEmpty with
  | true =>
    have hnil : s.containers = [] := by
      cases hcs : s.containers with
      | nil => rfl
      | cons a t => rw [hcs] at hE; exact absurd hE (by simp)
    have h1 : (reRenderMermaidDiagrams engine s).containers = [] :=
      reRender_containers_of_empty engine s hnil
    have h2 : (reRenderMermaidDiagrams engine (reRenderMermaidDiagrams engine s)).containers =
        [] := reRender_containers_of_empty engine _ h1
    rw [h1, h2]
  | false =>
    set s1 := reRenderMermaidDiagrams engine s with hs1
    have hE1 : s1.containers.isEmpty = false := by
      apply isEmpty_false_of_length_pos
      rw [hlen]
      cases hcs : s.containers with
      | nil => rw [hcs] at hE; exact absurd hE (by simp)
      | cons a t => exact Nat.succ_pos _
    have hmape : s1.containers.map Container.elemId = s.containers.map Container.elemId := by
      rw [hs1]
      cases hE' : s.containers.isEmpty with
      | true => rw [hE'] at hE; exact absurd hE (by simp)
      | false => simp [reRenderMermaidDiagrams, hE', reRenderLoop_map_elemId]
    have hcs1 : s1.containers =
        reRenderLoop engine (initMermaidWithTheme (getCurrentTheme s))
          s.renderCount s.codeMap s.containers 0 := by
      rw [hs1]; simp [reRenderMermaidDiagrams, hE]
    have hcs2 : (reRenderMermaidDiagrams engine s1).containers =
        reRenderLoop engine (initMermaidWithTheme (getCurrentTheme s))
          s1.renderCount s.codeMap s1.containers 0 := by
      simp [reRenderMermaidDiagrams, hE1, hthe, hcm]
    apply List.ext_getElem?
    intro j
    by_cases hj : j < s.containers.length
    · have hj1 : j < s1.containers.length := by rw [hlen]; exact hj
      have hget1 := reRenderLoop_getElem engine (initMermaidWithTheme (getCurrentTheme s))
        s.renderCount s.codeMap s.containers 0 j hj
      have hget2 := reRenderLoop_getElem engine (initMermaidWithTheme (getCurrentTheme s))
        s1.renderCount s.codeMap s1.containers 0 j hj1
      have hd1 : s1.containers[j]? =
          some (s1.containers.get ⟨j, hj1⟩) := List.getElem?_eq_getElem hj1
      have hds : (s1.containers.get ⟨j, hj1⟩).elemId =
          (s.containers.get ⟨j, hj⟩).elemId := by
        have := congrArg (fun l => l[j]?) hmape
        simp only [List.getElem?_map, List.getElem?_eq_getElem hj1,
          List.getElem?_eq_getElem hj, Option.map_some] at this
        exact Option.some.inj this
      have htake : ((s1.containers.take j).map Container.elemId) =
          ((s.containers.take j).map Container.elemId) := by
        rw [List.map_take, List.map_take, hmape]
      have hvalraw : s1.containers.get ⟨j, hj1⟩ =
          (if isFalsy (lookupMap s.codeMap ((s.containers.get ⟨j, hj⟩).elemId)) then
            s.containers.get ⟨j, hj⟩
          else { s.containers.get ⟨j, hj⟩ with content := (renderOutcome (engine
              (mkId s.renderCount
                (0 + countRendered s.codeMap ((s.containers.take j).map Container.elemId)))
              ((lookupMap s.codeMap ((s.containers.get ⟨j, hj⟩).elemId)).getD "")
              (initMermaidWithTheme (getCurrentTheme s)))) }) := by
        refine Option.some.inj (hd1.symm.trans ?_)
        rw [hcs1]
        exact hget1
      rw [List.getElem?_map, List.getElem?_map, hcs2, hget2, hd1]
      cases hfal : isFalsy (lookupMap s.codeMap ((s.containers.get ⟨j, hj⟩).elemId)) with
      | true =>
        simp only [hfal, if_true] at hvalraw
        rw [hvalraw]
        simp only [List.get_eq_getElem] at hfal
        simp [hfal]
      | false =>
        simp only [hfal, Bool.false_eq_true, if_false] at hvalraw
        rw [hvalraw, htake]
        simp only [List.get_eq_getElem] at hfal
        simp [hfal]
        exact congrArg renderOutcome (hengine _ _ _ _)
    · have hlen1 : (reRenderMermaidDiagrams engine s1).containers.length =
          s.containers.length := by
        rw [hcs2, reRenderLoop_length, hlen]
      have hlens : s1.containers.length = s.containers.length := hlen
      rw [List.getElem?_map, List.getElem?_map]
      rw [List.getElem?_eq_none (by rw [hlen1]; omega),
          List.getElem?_eq_none (by rw [hcs1, reRenderLoop_length]; omega)]

/-- Concrete instantiation of claim C8: two refresh passes over a single
registered diagram with an identifier-blind engine yield the same
markup. -/
theorem claim_C8_witness :
    ((reRenderMermaidDiagrams (fun _ code _ => Except.ok ("svg:" ++ code))
        (reRenderMermaidDiagrams (fun _ code _ => Except.ok ("svg:" ++ code))
          { docTheme := some "dark", osPrefersDark := false, codeMap := [(0, "gr")],
            renderCount := 1, containers := [⟨0, 0, "old"⟩], nextElem := 1,
            engineCfg := initMermaidWithTheme Theme.light })).containers.map
        Container.content) =
      ((reRenderMermaidDiagrams (fun _ code _ => Except.ok ("svg:" ++ code))
          { docTheme := some "dark", osPrefersDark := false, codeMap := [(0, "gr")],
            renderCount := 1, containers := [⟨0, 0, "old"⟩], nextElem := 1,
            engineCfg := initMermaidWithTheme Theme.light }).containers.map
        Container.content) :=
  claim_C8 (fun _ code _ => Except.ok ("svg:" ++ code)) (fun _ _ _ _ => rfl)
    { docTheme := some "dark", osPrefersDark := false, codeMap := [(0, "gr")],
      renderCount := 1, containers := [⟨0, 0, "old"⟩], nextElem := 1,
      engineCfg := initMermaidWithTheme Theme.light }

/-! ## Decimal representation: `Nat.repr` is injective and dash-free

Needed to reason about the render identifiers `mermaid-epoch-index`. -/

lemma toDigitsCore_acc (b : Nat) :
    ∀ (fuel n : Nat) (ds : List Char),
      Nat.toDigitsCore b fuel n ds = Nat.toDigitsCore b fuel n [] ++ ds := by
  intro fuel
  induction fuel with
  | zero => intro n ds; simp [Nat.toDigitsCore]
  | succ f ih =>
    intro n ds
    simp only [Nat.toDigitsCore]
    by_cases h : n / b = 0
    · simp [h]
    · simp only [h, if_false]
      rw [ih (n / b) (Nat.digitChar (n % b) :: ds), ih (n / b) [Nat.digitChar (n % b)]]
      simp

lemma toDigitsCore_fuel :
    ∀ (fuel n : Nat) (ds : List Char), n < fuel →
      Nat.toDigitsCore 10 fuel n ds = Nat.toDigitsCore 10 (n + 1) n ds := by
  intro fuel
  induction fuel using Nat.strong_induction_on with
  | _ fuel ih =>
    intro n ds hlt
    cases fuel with
    | zero => omega
    | succ f =>
      simp only [Nat.toDigitsCore]
      by_cases h : n / 10 = 0
      · simp [h]
      · simp only [h, if_false]
        have hn : 0 < n := by
          rcases Nat.eq_zero_or_pos n with rfl | hp
          · simp at h
          · exact hp
        have hdiv : n / 10 < n := Nat.div_lt_self hn (by omega)
        rw [ih f (Nat.lt_succ_self f) (n / 10) _ (by omega),
            ih n hlt (n / 10) _ hdiv]

/-- One-digit case of `Nat.toDigits`. -/
lemma toDigits_lt (n : Nat) (h : n < 10) : Nat.toDigits 10 n = [Nat.digitChar n] := by
  have hdiv : n / 10 = 0 := Nat.div_eq_of_lt h
  have hmod : n % 10 = n := Nat.mod_eq_of_lt h
  simp [Nat.toDigits, Nat.toDigitsCore, hdiv, hmod]

/-- Recursive case of `Nat.toDigits`. -/
lemma toDigits_ge (n : Nat) (h : 10 ≤ n) :
    Nat.toDigits 10 n = Nat.toDigits 10 (n / 10) ++ [Nat.digitChar (n % 10)] := by
  have hdiv : n / 10 ≠ 0 := by
    intro h0
    have := Nat.div_eq_zero_iff (by omega : 0 < 10) |>.1 h0
    omega
  have hpos : 0 < n := by omega
  show Nat.toDigitsCore 10 (n + 1) n [] = _
  simp only [Nat.toDigitsCore, hdiv, if_false]
  rw [toDigitsCore_fuel n (n / 10) _ (Nat.div_lt_self hpos (by omega)),
      toDigitsCore_acc 10 (n / 10 + 1) (n / 10) [Nat.digitChar (n % 10)]]
  rfl

lemma toDigits_ne_nil (n : Nat) : Nat.toDigits 10 n ≠ [] := by
  by_cases h : n < 10
  · rw [toDigits_lt n h]; simp
  · rw [toDigits_ge n (by omega)]; simp

lemma digitChar_isDigit : ∀ d : Nat, d < 10 → (Nat.digitChar d).isDigit = true := by
  decide

lemma digitChar_inj10 :
    ∀ a : Nat, a < 10 → ∀ b : Nat, b < 10 → Nat.digitChar a = Nat.digitChar b → a = b := by
  decide

lemma toDigits_all_digits :
    ∀ (n : Nat), ∀ c ∈ Nat.toDigits 10 n, c.isDigit = true := by
  intro n
  induction n using Nat.strong_induction_on with
  | _ n ih =>
    intro c hc
    by_cases h : n < 10
    · rw [toDigits_lt n h] at hc
      simp only [List.mem_singleton] at hc
      subst hc
      exact digitChar_isDigit n h
    · rw [toDigits_ge n (by omega)] at hc
      rcases List.mem_append.1 hc with h1 | h2
      · exact ih (n / 10) (Nat.div_lt_self (by omega) (by omega)) c h1
      · simp only [List.mem_singleton] at h2
        subst h2
        exact digitChar_isDigit _ (Nat.mod_lt n (by omega))

lemma toDigits_inj :
    ∀ (n m : Nat), Nat.toDigits 10 n = Nat.toDigits 10 m → n = m := by
  intro n
  induction n using Nat.strong_induction_on with
  | _ n ih =>
    intro m heq
    by_cases hn : n < 10 <;> by_cases hm : m < 10
    · rw [toDigits_lt n hn, toDigits_lt m hm] at heq
      simp only [List.cons.injEq, and_true] at heq
      exact digitChar_inj10 n hn m hm heq
    · rw [toDigits_lt n hn, toDigits_ge m (by omega)] at heq
      cases hmd : Nat.toDigits 10 (m / 10) with
      | nil => exact absurd hmd (toDigits_ne_nil (m / 10))
      | cons a t => rw [hmd] at heq; simp at heq
    · rw [toDigits_ge n (by omega), toDigits_lt m hm] at heq
      cases hnd : Nat.toDigits 10 (n / 10) with
      | nil => exact absurd hnd (toDigits_ne_nil (n / 10))
      | cons a t => rw [hnd] at heq; simp at heq
    · rw [toDigits_ge n (by omega), toDigits_ge m (by omega)] at heq
      rw [← List.concat_eq_append, ← List.concat_eq_append] at heq
      obtain ⟨hpre, hdig⟩ := List.of_concat_eq_concat heq
      have h1 : n / 10 = m / 10 :=
        ih (n / 10) (Nat.div_lt_self (by omega) (by omega)) (m / 10) hpre
      have h2 : n % 10 = m % 10 :=
        digitChar_inj10 _ (Nat.mod_lt n (by omega)) _ (Nat.mod_lt m (by omega)) hdig
      omega

lemma repr_data (n : Nat) : (Nat.repr n).data = Nat.toDigits 10 n := rfl

lemma repr_no_dash (n : Nat) : ∀ c ∈ (Nat.repr n).data, c ≠ '-' := by
  intro c hc heq
  have hd := toDigits_all_digits n c (by rw [← repr_data]; exact hc)
  rw [heq] at hd
  exact absurd hd (by decide)

/-- Splitting a character list at a separator occurring in neither prefix
is unambiguous. -/
lemma sep_split_unique :
    ∀ (a a' b b' : List Char), (∀ c ∈ a, c ≠ '-') → (∀ c ∈ a', c ≠ '-') →
      a ++ '-' :: b = a' ++ '-' :: b' → a = a' ∧ b = b' := by
  intro a
  induction a with
  | nil =>
    intro a' b b' _ ha' heq
    cases a' with
    | nil => simp only [List.nil_append, List.cons.injEq] at heq; exact ⟨rfl, heq.2⟩
    | cons y u =>
      simp only [List.nil_append, List.cons_append, List.cons.injEq] at heq
      exact absurd heq.1.symm (ha' y (List.mem_cons_self y u))
  | cons x t ih =>
    intro a' b b' ha ha' heq
    cases a' with
    | nil =>
      simp only [List.cons_append, List.nil_append, List.cons.injEq] at heq
      exact absurd heq.1 (ha x (List.mem_cons_self x t))
    | cons y u =>
      simp only [List.cons_append, List.cons.injEq] at heq
      obtain ⟨h1, h2⟩ := ih u b b' (fun c hc => ha c (List.mem_cons_of_mem x hc))
        (fun c hc => ha' c (List.mem_cons_of_mem y hc)) heq.2
      exact ⟨by rw [heq.1, h1], h2⟩

/-- Render identifiers are uniquely parsed: equal identifier strings come
from equal (epoch, index) pairs. -/
lemma mkId_inj (r i r' i' : Nat) (h : mkId r i = mkId r' i') : r = r' ∧ i = i' := by
  have hd := congrArg String.data h
  simp only [mkId, String.data_append] at hd
  have hd2 : (Nat.repr r).data ++ '-' :: (Nat.repr i).data =
      (Nat.repr r').data ++ '-' :: (Nat.repr i').data := by
    have := List.append_cancel_left (by simpa [List.append_assoc] using hd :
      "mermaid-".data ++ ((Nat.repr r).data ++ ('-' :: (Nat.repr i).data)) =
      "mermaid-".data ++ ((Nat.repr r').data ++ ('-' :: (Nat.repr i').data)))
    exact this
  obtain ⟨h1, h2⟩ := sep_split_unique _ _ _ _ (repr_no_dash r) (repr_no_dash r') hd2
  constructor
  · exact toDigits_inj r r' (by rw [← repr_data, ← repr_data, h1])
  · exact toDigits_inj i i' (by rw [← repr_data, ← repr_data, h2])

/-! ## Claim C3 -/

/-- Counterexample to claim C3 as stated: an explicit interleaving of two
refresh passes.  Pass A starts under theme dark and suspends at its
render call; the theme flips to light and pass B starts, completes, and
writes light-themed markup; then pass A's stale continuation resumes and
overwrites the container with dark-themed markup.  The superseded pass's
late result is NOT discarded: the final visible markup is pass A's, not
that of the most recently requested pass B. -/
theorem claim_C3_counterexample :
    (reRenderStart (fun _ code cfg => Except.ok (cfg.theme ++ ":" ++ code))
      { docTheme := some "dark", osPrefersDark := false, codeMap := [(0, "graph")],
        renderCount := 1, containers := [⟨0, 0, "initial"⟩], nextElem := 1,
        engineCfg := initMermaidWithTheme Theme.light } =
      ({ docTheme := some "dark", osPrefersDark := false, codeMap := [(0, "graph")],
         renderCount := 1, containers := [⟨0, 0, "initial"⟩], nextElem := 1,
         engineCfg := initMermaidWithTheme Theme.dark },
       some { target := 0, id := "mermaid-1-0", content := "dark:graph",
              rest := [], index := 0 })) ∧
    (reRenderStart (fun _ code cfg => Except.ok (cfg.theme ++ ":" ++ code))
      { docTheme := some "light", osPrefersDark := false, codeMap := [(0, "graph")],
        renderCount := 1, containers := [⟨0, 0, "initial"⟩], nextElem := 1,
        engineCfg := initMermaidWithTheme Theme.dark } =
      ({ docTheme := some "light", osPrefersDark := false, codeMap := [(0, "graph")],
         renderCount := 1, containers := [⟨0, 0, "initial"⟩], nextElem := 1,
         engineCfg := initMermaidWithTheme Theme.light },
       some { target := 0, id := "mermaid-1-0", content := "default:graph",
              rest := [], index := 0 })) ∧
    (reRenderResume (fun _ code cfg => Except.ok (cfg.theme ++ ":" ++ code))
      { docTheme := some "light", osPrefersDark := false, codeMap := [(0, "graph")],
        renderCount := 1, containers := [⟨0, 0, "initial"⟩], nextElem := 1,
        engineCfg := initMermaidWithTheme Theme.light }
      { target := 0, id := "mermaid-1-0", content := "default:graph",
        rest := [], index := 0 } =
      ({ docTheme := some "light", osPrefersDark := false, codeMap := [(0, "graph")],
         renderCount := 2, containers := [⟨0, 0, "default:graph"⟩], nextElem := 1,
         engineCfg := initMermaidWithTheme Theme.light }, none)) ∧
    (reRenderResume (fun _ code cfg => Except.ok (cfg.theme ++ ":" ++ code))
      { docTheme := some "light", osPrefersDark := false, codeMap := [(0, "graph")],
        renderCount := 2, containers := [⟨0, 0, "default:graph"⟩], nextElem := 1,
        engineCfg := initMermaidWithTheme Theme.light }
      { target := 0, id := "mermaid-1-0", content := "dark:graph",
        rest := [], index := 0 } =
      ({ docTheme := some "light", osPrefersDark := false, codeMap := [(0, "graph")],
         renderCount := 3, containers := [⟨0, 0, "dark:graph"⟩], nextElem := 1,
         engineCfg := initMermaidWithTheme Theme.light }, none)) ∧
    ([(⟨0, 0, "dark:graph"⟩ : Container)] ≠ [(⟨0, 0, "default:graph"⟩ : Container)]) := by
  refine ⟨rfl, rfl, rfl, rfl, by decide⟩

/-- Claim C3 amended: nothing serializes or supersedes overlapping
passes.  A suspended pass's resumption writes its carried markup into its
target container unconditionally — there is no staleness check and no
discard — so after overlapping passes each container shows whichever
pass wrote it last, which can be a superseded pass's output. -/
theorem claim_C3 (engine : Engine) (s : Sys) (k : RefreshPhase) :
    (reRenderResume engine s k).1.containers = setContent s.containers k.target k.content := by
  unfold reRenderResume
  split <;> rfl

/-- Concrete instantiation of claim C3 (amended): the stale resumption of
the superseded dark pass writes dark markup over the newer light markup. -/
theorem claim_C3_witness :
    (reRenderResume (fun _ code cfg => Except.ok (cfg.theme ++ ":" ++ code))
      { docTheme := some "light", osPrefersDark := false, codeMap := [(0, "graph")],
        renderCount := 2, containers := [⟨0, 0, "default:graph"⟩], nextElem := 1,
        engineCfg := initMermaidWithTheme Theme.light }
      { target := 0, id := "mermaid-1-0", content := "dark:graph",
        rest := [], index := 0 }).1.containers =
      setContent [⟨0, 0, "default:graph"⟩] 0 "dark:graph" :=
  claim_C3 (fun _ code cfg => Except.ok (cfg.theme ++ ":" ++ code))
    { docTheme := some "light", osPrefersDark := false, codeMap := [(0, "graph")],
      renderCount := 2, containers := [⟨0, 0, "default:graph"⟩], nextElem := 1,
      engineCfg := initMermaidWithTheme Theme.light }
    { target := 0, id := "mermaid-1-0", content := "dark:graph", rest := [], index := 0 }

/-! ## Claim C4 -/

/-- Counterexample to claim C4 as stated: two overlapping refresh passes
read the same `renderCount` and hand the render engine the same
identifier `mermaid-1-0`, so identifiers ARE reused within the process
lifetime when a pass starts while another is suspended.  (Pass A starts
and suspends; the theme flips; pass B starts before A resumes.) -/
theorem claim_C4_counterexample :
    ((reRenderStart (fun _ code cfg => Except.ok (cfg.theme ++ ":" ++ code))
      { docTheme := some "dark", osPrefersDark := false, codeMap := [(0, "graph")],
        renderCount := 1, containers := [⟨0, 0, "initial"⟩], nextElem := 1,
        engineCfg := initMermaidWithTheme Theme.light }).2.map RefreshPhase.id =
      some "mermaid-1-0") ∧
    ((reRenderStart (fun _ code cfg => Except.ok (cfg.theme ++ ":" ++ code))
      { docTheme := some "light", osPrefersDark := false, codeMap := [(0, "graph")],
        renderCount := 1, containers := [⟨0, 0, "initial"⟩], nextElem := 1,
        engineCfg := initMermaidWithTheme Theme.dark }).2.map RefreshPhase.id =
      some "mermaid-1-0") := by
  exact ⟨rfl, rfl⟩

/-! Machinery for the amended claim C4: identifier pairs issued across a
sequence of non-overlapping passes. -/

lemma renderLoopIds_epoch (rc : Nat) :
    ∀ (blocks : List CodeBlock) (index : Nat),
      ∀ p ∈ renderLoopIds rc blocks index, p.1 = rc := by
  intro blocks
  induction blocks with
  | nil => intro index p hp; simp [renderLoopIds] at hp
  | cons b rest ih =>
    intro index p hp
    cases hb : b.parent with
    | none =>
      rw [show renderLoopIds rc (b :: rest) index = renderLoopIds rc rest index by
        simp [renderLoopIds, hb]] at hp
      exact ih index p hp
    | some q =>
      rw [show renderLoopIds rc (b :: rest) index =
          (rc, index) :: renderLoopIds rc rest (index + 1) by
        simp [renderLoopIds, hb]] at hp
      rcases List.mem_cons.1 hp with rfl | hp'
      · rfl
      · exact ih (index + 1) p hp'

lemma renderLoopIds_index_ge (rc : Nat) :
    ∀ (blocks : List CodeBlock) (index : Nat),
      ∀ p ∈ renderLoopIds rc blocks index, index ≤ p.2 := by
  intro blocks
  induction blocks with
  | nil => intro index p hp; simp [renderLoopIds] at hp
  | cons b rest ih =>
    intro index p hp
    cases hb : b.parent with
    | none =>
      rw [show renderLoopIds rc (b :: rest) index = renderLoopIds rc rest index by
        simp [renderLoopIds, hb]] at hp
      exact ih index p hp
    | some q =>
      rw [show renderLoopIds rc (b :: rest) index =
          (rc, index) :: renderLoopIds rc rest (index + 1) by
        simp [renderLoopIds, hb]] at hp
      rcases List.mem_cons.1 hp with rfl | hp'
      · exact Nat.le_refl index
      · exact Nat.le_of_succ_le (ih (index + 1) p hp')

lemma renderLoopIds_nodup (rc : Nat) :
    ∀ (blocks : List CodeBlock) (index : Nat), (renderLoopIds rc blocks index).Nodup := by
  intro blocks
  induction blocks with
  | nil => intro index; simp [renderLoopIds]
  | cons b rest ih =>
    intro index
    cases hb : b.parent with
    | none =>
      rw [show renderLoopIds rc (b :: rest) index = renderLoopIds rc rest index by
        simp [renderLoopIds, hb]]
      exact ih index
    | some q =>
      rw [show renderLoopIds rc (b :: rest) index =
          (rc, index) :: renderLoopIds rc rest (index + 1) by
        simp [renderLoopIds, hb]]
      refine List.nodup_cons.2 ⟨fun hmem => ?_, ih (index + 1)⟩
      have := renderLoopIds_index_ge rc rest (index + 1) _ hmem
      omega

lemma reRenderLoopIds_epoch (rc : Nat) (cm : List (Nat × String)) :
    ∀ (cs : List Container) (index : Nat),
      ∀ p ∈ reRenderLoopIds rc cm cs index, p.1 = rc := by
  intro cs
  induction cs with
  | nil => intro index p hp; simp [reRenderLoopIds] at hp
  | cons d rest ih =>
    intro index p hp
    cases h : isFalsy (lookupMap cm d.elemId) with
    | true =>
      rw [show reRenderLoopIds rc cm (d :: rest) index = reRenderLoopIds rc cm rest index by
        simp [reRenderLoopIds, h]] at hp
      exact ih index p hp
    | false =>
      rw [show reRenderLoopIds rc cm (d :: rest) index =
          (rc, index) :: reRenderLoopIds rc cm rest (index + 1) by
        simp [reRenderLoopIds, h]] at hp
      rcases List.mem_cons.1 hp with rfl | hp'
      · rfl
      · exact ih (index + 1) p hp'

lemma reRenderLoopIds_index_ge (rc : Nat) (cm : List (Nat × String)) :
    ∀ (cs : List Container) (index : Nat),
      ∀ p ∈ reRenderLoopIds rc cm cs index, index ≤ p.2 := by
  intro cs
  induction cs with
  | nil => intro index p hp; simp [reRenderLoopIds] at hp
  | cons d rest ih =>
    intro index p hp
    cases h : isFalsy (lookupMap cm d.elemId) with
    | true =>
      rw [show reRenderLoopIds rc cm (d :: rest) index = reRenderLoopIds rc cm rest index by
        simp [reRenderLoopIds, h]] at hp
      exact ih index p hp
    | false =>
      rw [show reRenderLoopIds rc cm (d :: rest) index =
          (rc, index) :: reRenderLoopIds rc cm rest (index + 1) by
        simp [reRenderLoopIds, h]] at hp
      rcases List.mem_cons.1 hp with rfl | hp'
      · exact Nat.le_refl index
      · exact Nat.le_of_succ_le (ih (index + 1) p hp')

lemma reRenderLoopIds_nodup (rc : Nat) (cm : List (Nat × String)) :
    ∀ (cs : List Container) (index : Nat), (reRenderLoopIds rc cm cs index).Nodup := by
  intro cs
  induction cs with
  | nil => intro index; simp [reRenderLoopIds]
  | cons d rest ih =>
    intro index
    cases h : isFalsy (lookupMap cm d.elemId) with
    | true =>
      rw [show reRenderLoopIds rc cm (d :: rest) index = reRenderLoopIds rc cm rest index by
        simp [reRenderLoopIds, h]]
      exact ih index
    | false =>
      rw [show reRenderLoopIds rc cm (d :: rest) index =
          (rc, index) :: reRenderLoopIds rc cm rest (index + 1) by
        simp [reRenderLoopIds, h]]
      refine List.nodup_cons.2 ⟨fun hmem => ?_, ih (index + 1)⟩
      have := reRenderLoopIds_index_ge rc cm rest (index + 1) _ hmem
      omega

lemma passIds_epoch (p : Pass) (s : Sys) : ∀ q ∈ passIds p s, q.1 = s.renderCount := by
  cases p with
  | discovery blocks => exact renderLoopIds_epoch s.renderCount blocks 0
  | refresh =>
    intro q hq
    by_cases h : s.containers.isEmpty
    · simp [passIds, h] at hq
    · rw [show passIds Pass.refresh s =
          reRenderLoopIds s.renderCount s.codeMap s.containers 0 by
        simp [passIds, h]] at hq
      exact reRenderLoopIds_epoch s.renderCount s.codeMap s.containers 0 q hq

lemma passIds_nodup (p : Pass) (s : Sys) : (passIds p s).Nodup := by
  cases p with
  | discovery blocks => exact renderLoopIds_nodup s.renderCount blocks 0
  | refresh =>
    by_cases h : s.containers.isEmpty
    · simp [passIds, h]
    · rw [show passIds Pass.refresh s =
          reRenderLoopIds s.renderCount s.codeMap s.containers 0 by
        simp [passIds, h]]
      exact reRenderLoopIds_nodup s.renderCount s.codeMap s.containers 0

lemma applyPass_renderCount_ge (engine : Engine) (p : Pass) (s : Sys) :
    s.renderCount ≤ (applyPass engine p s).renderCount := by
  cases p with
  | discovery blocks =>
    show s.renderCount ≤ (renderMermaidDiagrams engine blocks s).renderCount
    unfold renderMermaidDiagrams
    rw [renderMermaidLoop_renderCount]
    exact Nat.le_succ _
  | refresh =>
    show s.renderCount ≤ (reRenderMermaidDiagrams engine s).renderCount
    cases h : s.containers.isEmpty with
    | true => simp [reRenderMermaidDiagrams, h]
    | false => simp [reRenderMermaidDiagrams, h]

lemma applyPass_renderCount_gt (engine : Engine) (p : Pass) (s : Sys)
    (h : passIds p s ≠ []) :
    s.renderCount + 1 ≤ (applyPass engine p s).renderCount := by
  cases p with
  | discovery blocks =>
    show s.renderCount + 1 ≤ (renderMermaidDiagrams engine blocks s).renderCount
    unfold renderMermaidDiagrams
    rw [renderMermaidLoop_renderCount]
  | refresh =>
    show s.renderCount + 1 ≤ (reRenderMermaidDiagrams engine s).renderCount
    cases hE : s.containers.isEmpty with
    | true => exact absurd (by simp [passIds, hE]) h
    | false => simp [reRenderMermaidDiagrams, hE]

lemma runPasses_renderCount_ge (engine : Engine) :
    ∀ (passes : List Pass) (s : Sys),
      s.renderCount ≤ (runPasses engine passes s).renderCount := by
  intro passes
  induction passes with
  | nil => intro s; exact Nat.le_refl _
  | cons p ps ih =>
    intro s
    exact Nat.le_trans (applyPass_renderCount_ge engine p s) (ih (applyPass engine p s))

lemma runIds_epoch_ge (engine : Engine) :
    ∀ (passes : List Pass) (s : Sys),
      ∀ q ∈ runIds engine passes s, s.renderCount ≤ q.1 := by
  intro passes
  induction passes with
  | nil => intro s q hq; simp [runIds] at hq
  | cons p ps ih =>
    intro s q hq
    rcases List.mem_append.1 hq with h1 | h2
    · exact Nat.le_of_eq (passIds_epoch p s q h1).symm
    · exact Nat.le_trans (applyPass_renderCount_ge engine p s)
        (ih (applyPass engine p s) q h2)

lemma runIds_nodup (engine : Engine) :
    ∀ (passes : List Pass) (s : Sys), (runIds engine passes s).Nodup := by
  intro passes
  induction passes with
  | nil => intro s; simp [runIds]
  | cons p ps ih =>
    intro s
    rw [show runIds engine (p :: ps) s =
        passIds p s ++ runIds engine ps (applyPass engine p s) from rfl]
    refine List.nodup_append.2 ⟨passIds_nodup p s, ih _, ?_⟩
    intro q hq hq'
    by_cases hnil : passIds p s = []
    · rw [hnil] at hq
      simp at hq
    · have h1 : q.1 = s.renderCount := passIds_epoch p s q hq
      have h2 : (applyPass engine p s).renderCount ≤ q.1 :=
        runIds_epoch_ge engine ps (applyPass engine p s) q hq'
      have h3 : s.renderCount + 1 ≤ (applyPass engine p s).renderCount :=
        applyPass_renderCount_gt engine p s hnil
      omega

/-- Claim C4 amended: `renderCount` never decreases; a discovery pass and
a refresh pass that finds at least one container increment it exactly
once (a refresh pass that finds none leaves it unchanged); every
identifier has the form `mermaid-epoch-index`; and provided passes do not
overlap — each pass runs to completion before the next starts — the
identifier strings issued across any sequence of passes are pairwise
distinct.  (Unqualified uniqueness fails: overlapping passes reuse
identifiers, see the counterexample.) -/
theorem claim_C4 (engine : Engine) (passes : List Pass) (s : Sys) :
    s.renderCount ≤ (runPasses engine passes s).renderCount ∧
    (∀ blocks, (renderMermaidDiagrams engine blocks s).renderCount = s.renderCount + 1) ∧
    (s.containers ≠ [] →
      (reRenderMermaidDiagrams engine s).renderCount = s.renderCount + 1) ∧
    ((runIds engine passes s).map fun q => mkId q.1 q.2).Nodup := by
  refine ⟨runPasses_renderCount_ge engine passes s, ?_, ?_, ?_⟩
  · intro blocks
    unfold renderMermaidDiagrams
    rw [renderMermaidLoop_renderCount]
  · intro h
    simp [reRenderMermaidDiagrams, List.isEmpty_iff, h]
  · refine List.Nodup.map_on ?_ (runIds_nodup engine passes s)
    intro q _ q' _ heq
    obtain ⟨h1, h2⟩ := mkId_inj q.1 q.2 q'.1 q'.2 heq
    exact Prod.ext h1 h2

/-- Concrete instantiation of claim C4 (amended): a discovery pass over
one block followed by two sequential refresh passes issues the pairwise
distinct identifiers `mermaid-0-0`, `mermaid-1-0`, `mermaid-2-0`. -/
theorem claim_C4_witness :
    (reRenderMermaidDiagrams (fun _ _ _ => Except.ok "<svg/>")
      { docTheme := none, osPrefersDark := false, codeMap := [(0, "graph")],
        renderCount := 1, containers := [⟨0, 0, "<svg/>"⟩], nextElem := 1,
        engineCfg := initMermaidWithTheme Theme.light }).renderCount = 2 ∧
    ((runIds (fun _ _ _ => Except.ok "<svg/>")
        [Pass.discovery [{ parent := some 9, text := some "graph" }],
         Pass.refresh, Pass.refresh]
        { docTheme := none, osPrefersDark := false, codeMap := [],
          renderCount := 0, containers := [], nextElem := 0,
          engineCfg := initMermaidWithTheme Theme.light }).map fun q =>
      mkId q.1 q.2).Nodup := by
  constructor
  · exact (claim_C4 (fun _ _ _ => Except.ok "<svg/>") []
      { docTheme := none, osPrefersDark := false, codeMap := [(0, "graph")],
        renderCount := 1, containers := [⟨0, 0, "<svg/>"⟩], nextElem := 1,
        engineCfg := initMermaidWithTheme Theme.light }).2.2.1 (by decide)
  · exact (claim_C4 (fun _ _ _ => Except.ok "<svg/>")
      [Pass.discovery [{ parent := some 9, text := some "graph" }],
       Pass.refresh, Pass.refresh]
      { docTheme := none, osPrefersDark := false, codeMap := [],
        renderCount := 0, containers := [], nextElem := 0,
        engineCfg := initMermaidWithTheme Theme.light }).2.2.2

end MermaidInit
